import Mathlib

/-!
Shallow embedding of `wikipedia_scraper_tool.py`.

The program has two pipelines: (1) scrape an HTML page's tables, pick the
one with a "Population" column, clean and rank it, and render a bar chart;
(2) analyze a page's sections, counting paragraphs, links, images and words.

Modelling conventions:
* A pandas `DataFrame` is an ordered list of column names plus an ordered
  list of rows; each row is a list of cells aligned with the columns.
* Cell values are strings, exact rationals (for numeric values; the Python
  floats are modelled by `Rat`), or the missing value `NaN`.
* Exceptions are modelled with `Except`: a fetch either errors or yields
  the parsed list of tables.
* `pd.to_numeric(..., errors=coerce)` is modelled on optionally signed
  integer and decimal literals; exponent forms and special floats are out
  of scope (population cells are integer-formatted strings).
* The HTML document is a tree of elements and text nodes; BeautifulSoup
  navigation (`find_all`, `parent`, `find_next_sibling`) is modelled by
  structural traversals that carry the needed sibling context.
-/

/-- A cell of a pandas DataFrame: a string, a numeric value, or NaN. -/
inductive Cell where
  | str (s : String)
  | num (q : Rat)
  | nan
deriving DecidableEq, Repr

/-- A pandas DataFrame: ordered column names and ordered rows of cells,
each row aligned positionally with the columns. -/
structure DataFrame where
  columns : List String
  rows : List (List Cell)
deriving DecidableEq, Repr

/-- The empty DataFrame, `pd.DataFrame()`. -/
def DataFrame.empty : DataFrame := ⟨[], []⟩

/-- Python `str(x)` on a cell, as done by `astype(str)`: strings unchanged,
integers printed in decimal, NaN prints as "nan". Decimal rendering of
non-integer numerics is out of scope for the population data. -/
def cellToStr : Cell → String
  | .str s => s
  | .num q => if q.den = 1 then toString q.num else toString q
  | .nan => "nan"

/-- Step 2 of the cleaning: `.str.replace(",", "", regex=True)` removes
every comma. -/
def removeCommas (s : String) : String :=
  String.mk (s.data.filter (fun c => c != ','))

/-- After at least one digit has been seen, consume further digits up to a
closing bracket; on success return the remaining characters after it. -/
def matchClose : List Char → Option (List Char)
  | [] => none
  | ']' :: tail => some tail
  | c :: rest => if c.isDigit then matchClose rest else none

/-- Attempt to match a footnote-marker tail `digits ++ ]` at the head of
`l` (the part following an opening bracket); on success return the
remaining characters after the closing bracket. -/
def matchMarker : List Char → Option (List Char)
  | [] => none
  | c :: rest => if c.isDigit then matchClose rest else none

/-- Fuelled scan for `.str.replace(r, , regex=True)` with the footnote
pattern: delete every non-overlapping leftmost occurrence of an opening
bracket, one or more digits, and a closing bracket; the fuel is an upper
bound on the number of characters still to be consumed. -/
def stripMarkersAux : Nat → List Char → List Char
  | 0, l => l
  | _ + 1, [] => []
  | fuel + 1, c :: rest =>
    if c = '[' then
      match matchMarker rest with
      | some tail => stripMarkersAux fuel tail
      | none => c :: stripMarkersAux fuel rest
    else c :: stripMarkersAux fuel rest

/-- Step 3 of the cleaning: remove bracketed digit footnote markers. -/
def removeFootnotes (s : String) : String :=
  String.mk (stripMarkersAux s.data.length s.data)

/-- Value of a list of decimal digit characters, most significant first. -/
def digitsToNat (ds : List Char) : Nat :=
  ds.foldl (fun n c => 10 * n + (c.toNat - 48)) 0

/-- Parse an unsigned numeric literal: an integer part, optionally followed
by a decimal point and fractional digits; at least one digit overall. -/
def parseUnsigned (cs : List Char) : Option Rat :=
  let ip := cs.takeWhile Char.isDigit
  match cs.drop ip.length with
  | [] => if ip.isEmpty then none else some ((digitsToNat ip : Nat) : Rat)
  | '.' :: fp =>
    if fp.all Char.isDigit && !(ip.isEmpty && fp.isEmpty) then
      some (((digitsToNat ip : Nat) : Rat) + ((digitsToNat fp : Nat) : Rat) / ((10 : Rat) ^ fp.length))
    else none
  | _ => none

/-- Step 4 of the cleaning: `pd.to_numeric(..., errors=coerce)`, modelled
on optionally signed integer and decimal literals; anything else coerces
to NaN (`none`). -/
def parseNumeric (s : String) : Option Rat :=
  match s.data with
  | '-' :: rest => (parseUnsigned rest).map (fun q => -q)
  | cs => parseUnsigned cs

/-- The whole per-cell cleaning chain of `clean_and_analyze_population_data`:
coerce to text, drop commas, drop footnote markers, parse as a number. -/
def cleanCell (c : Cell) : Option Rat :=
  parseNumeric (removeFootnotes (removeCommas (cellToStr c)))

/-- Replace the cell at position `n` of a row, leaving the row unchanged
when `n` is out of range (the positional model of a column assignment). -/
def setCell : List Cell → Nat → Cell → List Cell
  | [], _, _ => []
  | _ :: t, 0, v => v :: t
  | h :: t, n + 1, v => h :: setCell t n v

/-- The cell of row `r` in the column at position `i` (NaN when absent). -/
def cellAt (i : Nat) (r : List Cell) : Cell :=
  r.getD i Cell.nan

/-- Steps 1-4 applied to one row: the Population cell (at column position
`i`) is replaced by its parsed numeric value, or by NaN when parsing
fails. -/
def transformRow (i : Nat) (r : List Cell) : List Cell :=
  setCell r i (match cleanCell (cellAt i r) with
    | some q => Cell.num q
    | none => Cell.nan)

/-- The numeric value of the Population cell of a row (0 on non-numeric
cells; after the NaN drop every Population cell is numeric). -/
def rowPop (i : Nat) (r : List Cell) : Rat :=
  match cellAt i r with
  | .num q => q
  | _ => 0

/-- Descending comparison on the Population column, the sort order of
`df.nlargest(10, Population)`. -/
def popGE (i : Nat) (a b : List Cell) : Prop :=
  rowPop i b ≤ rowPop i a

instance (i : Nat) : DecidableRel (popGE i) :=
  fun a b => inferInstanceAs (Decidable (rowPop i b ≤ rowPop i a))

instance (i : Nat) : IsTotal (List Cell) (popGE i) :=
  ⟨fun a b => le_total (rowPop i b) (rowPop i a)⟩

instance (i : Nat) : IsTrans (List Cell) (popGE i) :=
  ⟨fun _ _ _ h1 h2 => le_trans h2 h1⟩

/-- `df.nlargest(k, Population)` with the default keep-first policy: a
stable descending sort on the Population column followed by taking the
first `k` rows. -/
def nlargestRows (k : Nat) (i : Nat) (rows : List (List Cell)) : List (List Cell) :=
  (rows.insertionSort (popGE i)).take k

/-- Whether a row survives `dropna(subset=[Population])` after the column
rewrite: its Population cell is not NaN. -/
def keptRow (i : Nat) (r : List Cell) : Bool :=
  match cellAt i r with
  | .nan => false
  | _ => true

/-- `df[Population].mean()`: the arithmetic mean of the Population column,
as an exact rational. -/
def meanPopulation (i : Nat) (rows : List (List Cell)) : Rat :=
  (rows.map (rowPop i)).sum / (rows.length : Rat)

/-- The outputs of a successful `clean_and_analyze_population_data` call:
the returned top-10 frame, the reported mean, and the final (mutated)
state of the caller's frame. -/
structure CleanResult where
  top10 : DataFrame
  mean : Rat
  cleaned : DataFrame
deriving DecidableEq, Repr

/-- `clean_and_analyze_population_data(df)`: `none` when the Population
column is missing; otherwise clean the column, drop unparseable rows in
place, report the mean and return the 10 largest rows. -/
def clean_and_analyze_population_data (df : DataFrame) : Option CleanResult :=
  if "Population" ∈ df.columns then
    let i := df.columns.indexOf "Population"
    let rows1 := (df.rows.map (transformRow i)).filter (keptRow i)
    let cleaned : DataFrame := ⟨df.columns, rows1⟩
    some { top10 := ⟨df.columns, nlargestRows 10 i rows1⟩
           mean := meanPopulation i rows1
           cleaned := cleaned }
  else none

/-- Python `str.strip()`: drop leading and trailing whitespace. -/
def stripString (s : String) : String :=
  String.mk (((s.data.dropWhile Char.isWhitespace).reverse.dropWhile Char.isWhitespace).reverse)

/-- Strip surrounding whitespace from every column name,
`table.columns.str.strip()`. -/
def stripColumns (t : DataFrame) : DataFrame :=
  ⟨t.columns.map stripString, t.rows⟩

/-- Scan the parsed tables in page order and return the first one whose
stripped column names contain "Population". -/
def findPopulationTable : List DataFrame → DataFrame
  | [] => DataFrame.empty
  | t :: ts =>
    let t1 := stripColumns t
    if "Population" ∈ t1.columns then t1 else findPopulationTable ts

/-- `scrape_wiki_tables`: on a network or parsing error return an empty
frame; otherwise return the first table with a "Population" column. -/
def scrape_wiki_tables : Except String (List DataFrame) → DataFrame
  | .error _ => DataFrame.empty
  | .ok tables => findPopulationTable tables

/-- Python substring containment, `needle in hay`. -/
def containsSub (needle hay : String) : Bool :=
  hay.data.tails.any (fun t => needle.data.isPrefixOf t)

/-- Whether the column at position `i` is text-typed (pandas dtype
object): every cell of the column is a string. -/
def isTextColumn (df : DataFrame) (i : Nat) : Bool :=
  df.rows.all (fun r => match cellAt i r with
    | .str _ => true
    | _ => false)

/-- First label-column predicate: the name contains "Country" or
"Dependency". -/
def labelPred1 (c : String) : Bool :=
  containsSub "Country" c || containsSub "Dependency" c

/-- Second label-column predicate: a text-typed column whose name contains
none of "Population", "Region", "Date". -/
def labelPred2 (df : DataFrame) (i : Nat) (c : String) : Bool :=
  isTextColumn df i && !containsSub "Population" c
    && !containsSub "Region" c && !containsSub "Date" c

/-- The label-column selection of `create_population_chart`: first pass
over column names for "Country"/"Dependency", second pass for a text
column not named like data columns. -/
def selectLabelColumn (df : DataFrame) : Option String :=
  match df.columns.find? labelPred1 with
  | some c => some c
  | none => (df.columns.enum.find? (fun p => labelPred2 df p.1 p.2)).map Prod.snd

/-- Outcome of `create_population_chart` (the rendering side effects are
abstracted to the chosen label column). -/
inductive ChartOutcome where
  | noData
  | noLabelColumn
  | rendered (label : String)
deriving DecidableEq, Repr

/-- `create_population_chart(df)`: no-op without data, otherwise select a
label column and render, aborting when none qualifies. -/
def create_population_chart : Option DataFrame → ChartOutcome
  | none => .noData
  | some df =>
    if df.rows.isEmpty || df.columns.isEmpty then .noData
    else
      match selectLabelColumn df with
      | some c => .rendered c
      | none => .noLabelColumn

mutual
/-- A parsed HTML node: an element with tag, attributes and children, or a
text node. `Html` and `HtmlList` are mutually inductive so that every
traversal is structural (the document node itself is the root element
handed to the analyzer; searches cover its strict descendants, as
BeautifulSoup searches cover the document's elements). -/
inductive Html where
  | elem (tag : String) (attrs : List (String × String)) (children : HtmlList)
  | text (s : String)

/-- A sequence of sibling HTML nodes. -/
inductive HtmlList where
  | nil
  | cons (h : Html) (t : HtmlList)
end

/-- View an `HtmlList` as a `List Html`. -/
def HtmlList.toList : HtmlList → List Html
  | .nil => []
  | .cons h t => h :: HtmlList.toList t

/-- Build an `HtmlList` from a `List Html`. -/
def HtmlList.ofList : List Html → HtmlList
  | [] => .nil
  | h :: t => .cons h (HtmlList.ofList t)

/-- The value of an attribute of a node, when present (`None` on text
nodes). -/
def attrOf (name : String) : Html → Option String
  | .elem _ attrs _ => (attrs.find? (fun p => p.1 == name)).map Prod.snd
  | .text _ => none

/-- Whether a node is an element with the given tag. -/
def isTag (tag : String) : Html → Bool
  | .elem t _ _ => t == tag
  | .text _ => false

/-- Split a character list on spaces into tokens (the class list of a
class attribute value). -/
def splitTokensAux : List Char → List Char → List String
  | [], acc => [String.mk acc.reverse]
  | c :: rest, acc =>
    if c = ' ' then String.mk acc.reverse :: splitTokensAux rest []
    else splitTokensAux rest (c :: acc)

/-- BeautifulSoup class matching: the class attribute, split on spaces,
contains the requested class. -/
def hasClass (cls : String) (n : Html) : Bool :=
  match attrOf "class" n with
  | some v => (splitTokensAux v.data []).contains cls
  | none => false

/-- A section-heading marker: `span` element with class `mw-headline`. -/
def isHeadlineSpan (n : Html) : Bool :=
  isTag "span" n && hasClass "mw-headline" n

mutual
/-- Text content of a node (`tag.text`): all text descendants
concatenated in document order. -/
def getText : Html → String
  | .elem _ _ cs => getTextList cs
  | .text s => s

/-- Concatenated text content of a sequence of nodes. -/
def getTextList : HtmlList → String
  | .nil => ""
  | .cons h t => getText h ++ getTextList t
end

mutual
/-- All descendant elements of a node with the given tag, in document
order (`tag.find_all(name)`). -/
def findAllTag (tag : String) : Html → List Html
  | .elem _ _ cs => findAllTagList tag cs
  | .text _ => []

/-- All elements with the given tag among a sequence of nodes and their
descendants, in document order. -/
def findAllTagList (tag : String) : HtmlList → List Html
  | .nil => []
  | .cons c rest =>
    (if isTag tag c then [c] else []) ++ findAllTag tag c ++ findAllTagList tag rest
end

mutual
/-- First descendant `div` with the given id, in document order
(`soup.find(div, id=...)`). -/
def findDivById (idv : String) : Html → Option Html
  | .elem _ _ cs => findDivByIdList idv cs
  | .text _ => none

/-- First `div` with the given id among a sequence of nodes and their
descendants. -/
def findDivByIdList (idv : String) : HtmlList → Option Html
  | .nil => none
  | .cons c rest =>
    if isTag "div" c && (attrOf "id" c == some idv) then some c
    else
      match findDivById idv c with
      | some d => some d
      | none => findDivByIdList idv rest
end

mutual
/-- All headline spans among the strict descendants of a node, in document
order, each paired with the list of following siblings of its parent
(where `header_span.parent.find_next_sibling` will look). `sibs` is the
list of following siblings of the node itself. -/
def collectHeadlines : Html → List Html → List (Html × List Html)
  | .elem _ _ cs, sibs => collectHeadlinesList cs sibs
  | .text _, _ => []

/-- All headline spans among a sequence of sibling nodes and their
descendants; `parentSibs` is the list of following siblings of their
common parent. -/
def collectHeadlinesList : HtmlList → List Html → List (Html × List Html)
  | .nil, _ => []
  | .cons c rest, parentSibs =>
    (if isHeadlineSpan c then [(c, parentSibs)] else [])
      ++ collectHeadlines c rest.toList ++ collectHeadlinesList rest parentSibs
end

/-- Per-section metrics printed by `count_attributes_in_section`. -/
structure SectionCounts where
  paragraphs : Nat
  hyperlinks : Nat
  pictures : Nat
  words : Nat
deriving DecidableEq, Repr

/-- A word character for the regex token `\w`. -/
def isWordChar (c : Char) : Bool :=
  c.isAlphanum || c == '_'

/-- Number of maximal runs of word characters, the number of regex word
tokens in a text. -/
def countWordsAux : List Char → Bool → Nat
  | [], _ => 0
  | c :: rest, inWord =>
    if isWordChar c then (if inWord then 0 else 1) + countWordsAux rest true
    else countWordsAux rest false

/-- Number of word tokens in a string. -/
def countWords (s : String) : Nat :=
  countWordsAux s.data false

/-- `count_attributes_in_section`: over all paragraph elements of a
content block, count paragraphs, nested anchors, nested images, and word
tokens of the paragraph texts. -/
def count_attributes_in_section (content : Html) : SectionCounts :=
  let ps := findAllTag "p" content
  { paragraphs := ps.length
    hyperlinks := (ps.map (fun p => (findAllTag "a" p).length)).sum
    pictures := (ps.map (fun p => (findAllTag "img" p).length)).sum
    words := (ps.map (fun p => countWords (getText p))).sum }

/-- One printed record of the section analyzer: the section name, and its
counts when a content block was found (`none` when the analyzer printed
that it could not find content for the section). -/
abbrev SectionReport := String × Option SectionCounts

/-- The body of `analyze_page_content` on an already fetched and parsed
document: with no headline spans, analyze the `mw-content-text` container
as the single "Main Content" section (nothing when that container is
missing); otherwise, for each headline, analyze the first following `div`
sibling of its parent, reporting no content when there is none. -/
def analyze_page_content (doc : Html) : List SectionReport :=
  let headers := collectHeadlines doc []
  if headers.isEmpty then
    match findDivById "mw-content-text" doc with
    | some body => [("Main Content", some (count_attributes_in_section body))]
    | none => []
  else
    headers.map (fun pr =>
      (getText pr.1,
        (pr.2.find? (isTag "div")).map count_attributes_in_section))

/-!
Lemmas about the footnote-marker removal.
-/

/-- Canonical marker removal on character lists (enough fuel). -/
def stripMarkers (l : List Char) : List Char :=
  stripMarkersAux l.length l

theorem matchClose_length : ∀ {l tail : List Char}, matchClose l = some tail →
    tail.length < l.length := by
  intro l
  induction l with
  | nil => intro tail h; simp [matchClose] at h
  | cons c rest ih =>
    intro tail h
    by_cases hc : c = ']'
    · subst hc
      simp [matchClose] at h
      subst h
      simp
    · rw [show matchClose (c :: rest) = if c.isDigit then matchClose rest else none from by
        cases rest <;> simp [matchClose, hc]] at h
      by_cases hd : c.isDigit
      · simp [hd] at h
        exact Nat.lt_trans (ih h) (by simp)
      · simp [hd] at h

theorem matchMarker_length {l tail : List Char} (h : matchMarker l = some tail) :
    tail.length < l.length := by
  cases l with
  | nil => simp [matchMarker] at h
  | cons c rest =>
    simp only [matchMarker] at h
    by_cases hd : c.isDigit
    · simp [hd] at h
      exact Nat.lt_trans (matchClose_length h) (by simp)
    · simp [hd] at h

theorem stripMarkersAux_congr :
    ∀ (fuel fuel' : Nat) (l : List Char), l.length ≤ fuel → l.length ≤ fuel' →
      stripMarkersAux fuel l = stripMarkersAux fuel' l := by
  intro fuel
  induction fuel with
  | zero =>
    intro fuel' l h _
    have : l = [] := List.eq_nil_of_length_eq_zero (Nat.le_zero.mp h)
    subst this
    cases fuel' <;> rfl
  | succ n ih =>
    intro fuel' l h h'
    cases l with
    | nil => cases fuel' <;> rfl
    | cons c rest =>
      cases fuel' with
      | zero => exact absurd h' (by simp)
      | succ m =>
        by_cases hc : c = '['
        · subst hc
          cases hm : matchMarker rest with
          | none =>
            have hr : rest.length ≤ n := by simpa using h
            have hr' : rest.length ≤ m := by simpa using h'
            simp only [stripMarkersAux, hm, if_pos rfl]
            rw [ih m rest hr hr']
          | some tail =>
            have ht := matchMarker_length hm
            have hr : tail.length ≤ n := by simp at h; omega
            have hr' : tail.length ≤ m := by simp at h'; omega
            simp only [stripMarkersAux, hm, if_pos rfl]
            exact ih m tail hr hr'
        · have hr : rest.length ≤ n := by simpa using h
          have hr' : rest.length ≤ m := by simpa using h'
          simp only [stripMarkersAux, if_neg hc]
          rw [ih m rest hr hr']

theorem removeFootnotes_mk (l : List Char) :
    removeFootnotes (String.mk l) = String.mk (stripMarkers l) := rfl

theorem stripMarkers_nil : stripMarkers [] = [] := rfl

theorem stripMarkers_cons_ne {c : Char} (rest : List Char) (hc : c ≠ '[') :
    stripMarkers (c :: rest) = c :: stripMarkers rest := by
  simp only [stripMarkers, List.length_cons, stripMarkersAux, if_neg hc]

theorem stripMarkers_cons_marker {rest tail : List Char}
    (hm : matchMarker rest = some tail) :
    stripMarkers ('[' :: rest) = stripMarkers tail := by
  simp only [stripMarkers, List.length_cons, stripMarkersAux, hm, if_pos rfl]
  exact stripMarkersAux_congr rest.length tail.length tail
    (Nat.le_of_lt (matchMarker_length hm)) (Nat.le_refl _)

theorem stripMarkers_cons_nomatch {rest : List Char}
    (hm : matchMarker rest = none) :
    stripMarkers ('[' :: rest) = '[' :: stripMarkers rest := by
  simp only [stripMarkers, List.length_cons, stripMarkersAux, hm, if_pos rfl]
  simp

theorem stripMarkers_append_of_no_bracket :
    ∀ (l₁ l₂ : List Char), (∀ c ∈ l₁, c ≠ '[') →
      stripMarkers (l₁ ++ l₂) = l₁ ++ stripMarkers l₂ := by
  intro l₁
  induction l₁ with
  | nil => intro l₂ _; rfl
  | cons c t ih =>
    intro l₂ h
    have hc : c ≠ '[' := h c (by simp)
    rw [List.cons_append, stripMarkers_cons_ne (t ++ l₂) hc,
      ih l₂ (fun x hx => h x (by simp [hx])), List.cons_append]

/-- The shape of a (possibly empty) run of trailing footnote markers: a
concatenation of pieces, each an opening bracket, one or more digits, and
a closing bracket. -/
inductive IsMarkers : List Char → Prop where
  | nil : IsMarkers []
  | cons (d : Char) (ds rest : List Char) :
      d.isDigit → (∀ c ∈ ds, c.isDigit) → IsMarkers rest →
      IsMarkers ('[' :: d :: ds ++ ']' :: rest)

theorem matchClose_digits :
    ∀ (ds rest : List Char), (∀ c ∈ ds, c.isDigit) →
      matchClose (ds ++ ']' :: rest) = some rest := by
  intro ds
  induction ds with
  | nil => intro rest _; rfl
  | cons d t ih =>
    intro rest h
    have hd : d.isDigit := h d (by simp)
    have hne : d ≠ ']' := by
      intro he
      rw [he] at hd
      exact absurd hd (by decide)
    rw [List.cons_append,
      show matchClose (d :: (t ++ ']' :: rest)) = if d.isDigit then matchClose (t ++ ']' :: rest) else none from by
        cases ht : t ++ ']' :: rest <;> simp [matchClose, hne],
      if_pos hd, ih rest (fun c hc => h c (by simp [hc]))]

theorem stripMarkers_of_isMarkers {ms : List Char} (h : IsMarkers ms) :
    stripMarkers ms = [] := by
  induction h with
  | nil => rfl
  | cons d ds rest hd hds _ ih =>
    have hm : matchMarker (d :: ds ++ ']' :: rest) = some rest := by
      simp only [matchMarker, List.cons_append, if_pos hd]
      exact matchClose_digits ds rest hds
    calc stripMarkers ('[' :: d :: ds ++ ']' :: rest)
        = stripMarkers rest := stripMarkers_cons_marker hm
      _ = [] := ih

theorem isMarkers_chars {ms : List Char} (h : IsMarkers ms) :
    ∀ c ∈ ms, c = '[' ∨ c = ']' ∨ c.isDigit := by
  induction h with
  | nil => intro c hc; simp at hc
  | cons d ds rest hd hds _ ih =>
    intro c hc
    simp only [List.cons_append, List.mem_cons, List.mem_append] at hc
    rcases hc with rfl | rfl | hc | hc
    · exact Or.inl rfl
    · exact Or.inr (Or.inr hd)
    · exact Or.inr (Or.inr (hds c hc))
    · rcases hc with rfl | hc
      · exact Or.inr (Or.inl rfl)
      · exact ih c hc

/-!
Lemmas about numeric parsing.
-/

theorem parseUnsigned_digits (ds : List Char) (hne : ds ≠ [])
    (hd : ∀ c ∈ ds, c.isDigit) :
    parseUnsigned ds = some ((digitsToNat ds : Nat) : Rat) := by
  have ht : ds.takeWhile Char.isDigit = ds := List.takeWhile_eq_self_iff.mpr hd
  have hie : ds.isEmpty = false := by
    cases ds with
    | nil => exact absurd rfl hne
    | cons c t => rfl
  simp only [parseUnsigned, ht, List.drop_length, hie]
  rfl

theorem parseNumeric_mk_digits (ds : List Char) (hne : ds ≠ [])
    (hd : ∀ c ∈ ds, c.isDigit) :
    parseNumeric (String.mk ds) = some ((digitsToNat ds : Nat) : Rat) := by
  rw [← parseUnsigned_digits ds hne hd]
  cases ds with
  | nil => exact absurd rfl hne
  | cons c t =>
    have hc : c ≠ '-' := by
      intro he
      have := hd c (by simp)
      rw [he] at this
      exact absurd this (by decide)
    simp only [parseNumeric]
    split
    · rename_i heq
      simp only [List.cons.injEq] at heq
      exact absurd heq.1 hc
    · rfl

/-- C2: for every Population cell that is a digit string with
thousands-separator commas and trailing bracketed digit footnote markers,
the cleaning steps (coerce to text, remove commas, remove markers of the
form bracketed digits, parse as a number) yield exactly the integer whose
digits are the cell's digits with separators and markers removed. -/
theorem c2_cell_cleaning (numPart ms : List Char)
    (h1 : ∀ c ∈ numPart, c.isDigit ∨ c = ',')
    (h2 : ∃ c ∈ numPart, c.isDigit)
    (h3 : IsMarkers ms) :
    cleanCell (Cell.str (String.mk (numPart ++ ms)))
      = some ((digitsToNat (numPart.filter Char.isDigit) : Nat) : Rat) := by
  have hfil : (numPart ++ ms).filter (fun c => c != ',')
      = numPart.filter Char.isDigit ++ ms := by
    rw [List.filter_append]
    congr 1
    · apply List.filter_congr
      intro c hc
      rcases h1 c hc with hd | he
      · have hne : (c != ',') = true := by
          have : c ≠ ',' := by
            intro he
            rw [he] at hd
            exact absurd hd (by decide)
          simp [this]
        rw [hne, hd]
      · rw [he]
        rfl
    · rw [List.filter_eq_self]
      intro c hc
      rcases isMarkers_chars h3 c hc with rfl | rfl | hd
      · rfl
      · rfl
      · have : c ≠ ',' := by
          intro he
          rw [he] at hd
          exact absurd hd (by decide)
        simp [this]
  have hnb : ∀ c ∈ numPart.filter Char.isDigit, c ≠ '[' := by
    intro c hc he
    have hd := (List.mem_filter.mp hc).2
    rw [he] at hd
    exact absurd hd (by decide)
  have hstrip : stripMarkers (numPart.filter Char.isDigit ++ ms)
      = numPart.filter Char.isDigit := by
    rw [stripMarkers_append_of_no_bracket _ _ hnb, stripMarkers_of_isMarkers h3,
      List.append_nil]
  obtain ⟨c0, hc0m, hc0d⟩ := h2
  have hne : numPart.filter Char.isDigit ≠ [] := by
    intro he
    have hmem : c0 ∈ numPart.filter Char.isDigit := List.mem_filter.mpr ⟨hc0m, hc0d⟩
    rw [he] at hmem
    simp at hmem
  have e2 : removeCommas (String.mk (numPart ++ ms))
      = String.mk (numPart.filter Char.isDigit ++ ms) := by
    unfold removeCommas
    exact congrArg String.mk hfil
  unfold cleanCell
  rw [show cellToStr (Cell.str (String.mk (numPart ++ ms))) = String.mk (numPart ++ ms) from rfl,
    e2, removeFootnotes_mk, hstrip]
  exact parseNumeric_mk_digits _ hne (fun c hc => (List.mem_filter.mp hc).2)

/-- Witness for C2 at the cell "1,234,567[3]", which cleans to exactly
1234567. -/
theorem c2_cell_cleaning_witness :
    cleanCell (Cell.str "1,234,567[3]") = some ((1234567 : Nat) : Rat)
  ∧ cleanCell (Cell.str (String.mk
      (['1', ',', '2', '3', '4', ',', '5', '6', '7'] ++ ['[', '3', ']'])))
      = some ((digitsToNat
          (['1', ',', '2', '3', '4', ',', '5', '6', '7'].filter Char.isDigit) : Nat) : Rat) :=
  ⟨by decide,
   c2_cell_cleaning ['1', ',', '2', '3', '4', ',', '5', '6', '7'] ['[', '3', ']']
     (by decide) (by decide)
     (IsMarkers.cons '3' [] [] (by decide) (by decide) IsMarkers.nil)⟩

/-!
Lemmas about the per-row pipeline of the cleaner.
-/

theorem cellAt_setCell_self :
    ∀ (r : List Cell) (i : Nat) (v : Cell),
      cellAt i (setCell r i v) = if i < r.length then v else Cell.nan := by
  intro r
  induction r with
  | nil => intro i v; cases i <;> rfl
  | cons h t ih =>
    intro i v
    cases i with
    | zero => simp [cellAt, setCell]
    | succ n =>
      show cellAt n (setCell t n v) = _
      rw [ih n v]
      simp [Nat.succ_lt_succ_iff]

theorem cellAt_setCell_ne :
    ∀ (r : List Cell) (i j : Nat) (v : Cell), j ≠ i →
      cellAt j (setCell r i v) = cellAt j r := by
  intro r
  induction r with
  | nil => intro i j v _; cases i <;> rfl
  | cons h t ih =>
    intro i j v hji
    cases i with
    | zero =>
      cases j with
      | zero => exact absurd rfl hji
      | succ m => rfl
    | succ n =>
      cases j with
      | zero => rfl
      | succ m =>
        show cellAt m (setCell t n v) = cellAt m t
        exact ih n m v (fun he => hji (by rw [he]))

theorem cellAt_of_length_le {r : List Cell} {i : Nat} (h : r.length ≤ i) :
    cellAt i r = Cell.nan := by
  unfold cellAt
  rw [List.getD_eq_default]
  exact h

theorem cleanCell_nan : cleanCell Cell.nan = none := by decide

theorem cellAt_transformRow (i : Nat) (r : List Cell) :
    cellAt i (transformRow i r) = (match cleanCell (cellAt i r) with
      | some q => Cell.num q
      | none => Cell.nan) := by
  unfold transformRow
  rw [cellAt_setCell_self]
  by_cases hlt : i < r.length
  · rw [if_pos hlt]
  · rw [if_neg hlt]
    rw [cellAt_of_length_le (Nat.le_of_not_lt hlt), cleanCell_nan]

theorem keptRow_transformRow (i : Nat) (r : List Cell) :
    keptRow i (transformRow i r) = (cleanCell (cellAt i r)).isSome := by
  unfold keptRow
  rw [cellAt_transformRow]
  cases cleanCell (cellAt i r) <;> rfl

theorem rowPop_transformRow {i : Nat} {r : List Cell} {q : Rat}
    (h : cleanCell (cellAt i r) = some q) :
    rowPop i (transformRow i r) = q := by
  unfold rowPop
  rw [cellAt_transformRow, h]

/-- Position of the Population column. -/
def popIdx (df : DataFrame) : Nat :=
  df.columns.indexOf "Population"

/-- Whether a row of the input frame survives the cleaning: its Population
cell parses as a number. -/
def rowParses (df : DataFrame) (r : List Cell) : Bool :=
  (cleanCell (cellAt (popIdx df) r)).isSome

/-- The rows of the frame after the in-place clean and row drop. -/
def cleanedRows (df : DataFrame) : List (List Cell) :=
  (df.rows.map (transformRow (popIdx df))).filter (keptRow (popIdx df))

theorem cleanedRows_eq (df : DataFrame) :
    cleanedRows df = (df.rows.filter (rowParses df)).map (transformRow (popIdx df)) := by
  unfold cleanedRows
  rw [List.filter_map]
  congr 1
  apply List.filter_congr
  intro r _
  exact keptRow_transformRow (popIdx df) r

theorem cleanedRows_length (df : DataFrame) :
    (cleanedRows df).length = df.rows.countP (rowParses df) := by
  rw [cleanedRows_eq, List.length_map, ← List.countP_eq_length_filter]

theorem cleanedRows_pops (df : DataFrame) :
    (cleanedRows df).map (rowPop (popIdx df))
      = df.rows.filterMap (fun r => cleanCell (cellAt (popIdx df) r)) := by
  rw [cleanedRows_eq]
  induction df.rows with
  | nil => rfl
  | cons r t ih =>
    cases hc : cleanCell (cellAt (popIdx df) r) with
    | some q =>
      have hp : rowParses df r = true := by simp [rowParses, hc]
      simp only [List.filter_cons, List.filterMap_cons, hp, hc, if_pos, List.map_cons]
      rw [rowPop_transformRow hc, ih]
    | none =>
      have hp : rowParses df r = false := by simp [rowParses, hc]
      simp only [List.filter_cons, List.filterMap_cons, hp, hc]
      simp only [Bool.false_eq_true, if_false]
      exact ih

theorem clean_some_inv {df : DataFrame} {res : CleanResult}
    (h : clean_and_analyze_population_data df = some res) :
    "Population" ∈ df.columns
  ∧ res.top10 = ⟨df.columns, nlargestRows 10 (popIdx df) (cleanedRows df)⟩
  ∧ res.mean = meanPopulation (popIdx df) (cleanedRows df)
  ∧ res.cleaned = ⟨df.columns, cleanedRows df⟩ := by
  unfold clean_and_analyze_population_data at h
  by_cases hmem : "Population" ∈ df.columns
  · rw [if_pos hmem] at h
    have := Option.some.inj h
    subst this
    exact ⟨hmem, rfl, rfl, rfl⟩
  · rw [if_neg hmem] at h
    cases h

/-- C1: for every dataset with a Population column, the returned ranked
subset has size min(10, number of rows whose Population parsed to a
number) and is sorted in descending order of Population. -/
theorem c1_ranked_subset (df : DataFrame) (res : CleanResult)
    (h : clean_and_analyze_population_data df = some res) :
    res.top10.rows.length = min 10 (df.rows.countP (rowParses df))
  ∧ List.Sorted (popGE (popIdx df)) res.top10.rows := by
  obtain ⟨-, htop, -, -⟩ := clean_some_inv h
  constructor
  · rw [htop]
    show (nlargestRows 10 (popIdx df) (cleanedRows df)).length = _
    unfold nlargestRows
    rw [List.length_take, List.length_insertionSort, cleanedRows_length]
  · rw [htop]
    show List.Sorted (popGE (popIdx df)) (nlargestRows 10 (popIdx df) (cleanedRows df))
    unfold nlargestRows
    exact List.Pairwise.sublist (List.take_sublist 10 _)
      (List.sorted_insertionSort (popGE (popIdx df)) (cleanedRows df))

/-- Input frame with populations 5, 3, 9, 1. -/
def dfRanked : DataFrame :=
  ⟨["Country", "Population"],
   [[Cell.str "A", Cell.str "5"], [Cell.str "B", Cell.str "3"],
    [Cell.str "C", Cell.str "9"], [Cell.str "D", Cell.str "1"]]⟩

/-- Result of cleaning `dfRanked`. -/
def resRanked : CleanResult :=
  ⟨⟨["Country", "Population"],
    [[Cell.str "C", Cell.num 9], [Cell.str "A", Cell.num 5],
     [Cell.str "B", Cell.num 3], [Cell.str "D", Cell.num 1]]⟩,
   (9 : Rat) / 2,
   ⟨["Country", "Population"],
    [[Cell.str "A", Cell.num 5], [Cell.str "B", Cell.num 3],
     [Cell.str "C", Cell.num 9], [Cell.str "D", Cell.num 1]]⟩⟩

/-- Input frame with populations 5, 3, 9 and one unparseable row. -/
def dfRanked3 : DataFrame :=
  ⟨["Country", "Population"],
   [[Cell.str "A", Cell.str "5"], [Cell.str "B", Cell.str "3"],
    [Cell.str "C", Cell.str "9"], [Cell.str "D", Cell.str "N/A"]]⟩

/-- Witness for C1: populations 5, 3, 9, 1 rank to 9, 5, 3, 1; with only
3 valid rows exactly those 3 come back in descending order. -/
theorem c1_ranked_subset_witness :
    clean_and_analyze_population_data dfRanked = some resRanked
  ∧ resRanked.top10.rows
      = [[Cell.str "C", Cell.num 9], [Cell.str "A", Cell.num 5],
         [Cell.str "B", Cell.num 3], [Cell.str "D", Cell.num 1]]
  ∧ Option.map (fun r => r.top10.rows) (clean_and_analyze_population_data dfRanked3)
      = some [[Cell.str "C", Cell.num 9], [Cell.str "A", Cell.num 5],
              [Cell.str "B", Cell.num 3]]
  ∧ (resRanked.top10.rows.length = min 10 (dfRanked.rows.countP (rowParses dfRanked))
      ∧ List.Sorted (popGE (popIdx dfRanked)) resRanked.top10.rows) :=
  ⟨by with_unfolding_all rfl, by decide, by decide,
   c1_ranked_subset dfRanked resRanked (by with_unfolding_all rfl)⟩

/-- C3: every row whose Population fails to parse after cleaning is
dropped from the dataset, the reported mean is the sum of the parsed
values divided by their count, and every ranked row is a surviving row. -/
theorem c3_unparseable_dropped (df : DataFrame) (res : CleanResult)
    (h : clean_and_analyze_population_data df = some res) :
    res.cleaned.rows = (df.rows.filter (rowParses df)).map (transformRow (popIdx df))
  ∧ res.mean = (df.rows.filterMap (fun r => cleanCell (cellAt (popIdx df) r))).sum
      / ((df.rows.countP (rowParses df) : Nat) : Rat)
  ∧ ∀ r ∈ res.top10.rows, r ∈ res.cleaned.rows := by
  obtain ⟨-, htop, hmean, hcl⟩ := clean_some_inv h
  refine ⟨?_, ?_, ?_⟩
  · rw [hcl]
    exact cleanedRows_eq df
  · rw [hmean]
    unfold meanPopulation
    rw [cleanedRows_pops, cleanedRows_length]
  · intro r hr
    rw [htop] at hr
    rw [hcl]
    show r ∈ cleanedRows df
    have hr2 : r ∈ (cleanedRows df).insertionSort (popGE (popIdx df)) :=
      List.mem_of_mem_take hr
    exact (List.mem_insertionSort (popGE (popIdx df))).mp hr2

/-- Input frame with one comma-and-footnote value, one unparseable value
and one plain value. -/
def dfMixed : DataFrame :=
  ⟨["Country", "Population"],
   [[Cell.str "A", Cell.str "1,000[1]"], [Cell.str "B", Cell.str "N/A"],
    [Cell.str "C", Cell.str "250"]]⟩

/-- Result of cleaning `dfMixed`: the unparseable row B is gone. -/
def resMixed : CleanResult :=
  ⟨⟨["Country", "Population"],
    [[Cell.str "A", Cell.num 1000], [Cell.str "C", Cell.num 250]]⟩,
   (625 : Rat),
   ⟨["Country", "Population"],
    [[Cell.str "A", Cell.num 1000], [Cell.str "C", Cell.num 250]]⟩⟩

/-- Witness for C3: the "N/A" row is dropped and the reported mean 625
averages exactly the two parsed rows. -/
theorem c3_unparseable_dropped_witness :
    clean_and_analyze_population_data dfMixed = some resMixed
  ∧ resMixed.cleaned.rows = [[Cell.str "A", Cell.num 1000], [Cell.str "C", Cell.num 250]]
  ∧ resMixed.mean = 625
  ∧ (resMixed.cleaned.rows
        = (dfMixed.rows.filter (rowParses dfMixed)).map (transformRow (popIdx dfMixed))
      ∧ resMixed.mean
        = (dfMixed.rows.filterMap (fun r => cleanCell (cellAt (popIdx dfMixed) r))).sum
            / ((dfMixed.rows.countP (rowParses dfMixed) : Nat) : Rat)
      ∧ ∀ r ∈ resMixed.top10.rows, r ∈ resMixed.cleaned.rows) :=
  ⟨by with_unfolding_all rfl, by decide, by with_unfolding_all rfl,
   c3_unparseable_dropped dfMixed resMixed (by with_unfolding_all rfl)⟩

/-- C9: after a successful call the caller's frame keeps its columns, its
rows are exactly the surviving rows in their original relative order with
the Population cell replaced by the parsed value, and the rewrite of one
row changes no cell outside the Population column. -/
theorem c9_in_place_mutation (df : DataFrame) (res : CleanResult)
    (h : clean_and_analyze_population_data df = some res) :
    res.cleaned.columns = df.columns
  ∧ res.cleaned.rows = (df.rows.filter (rowParses df)).map (transformRow (popIdx df))
  ∧ (∀ r : List Cell, ∀ j : Nat, j ≠ popIdx df →
      cellAt j (transformRow (popIdx df) r) = cellAt j r)
  ∧ (∀ r : List Cell, ∀ q : Rat, cleanCell (cellAt (popIdx df) r) = some q →
      cellAt (popIdx df) (transformRow (popIdx df) r) = Cell.num q) := by
  obtain ⟨-, -, -, hcl⟩ := clean_some_inv h
  refine ⟨by rw [hcl], ?_, ?_, ?_⟩
  · rw [hcl]
    exact cleanedRows_eq df
  · intro r j hj
    exact cellAt_setCell_ne r (popIdx df) j _ hj
  · intro r q hq
    rw [cellAt_transformRow, hq]

/-- Witness for C9 at `dfMixed`: columns survive, rows A and C survive in
order with parsed populations, other cells untouched. -/
theorem c9_in_place_mutation_witness :
    clean_and_analyze_population_data dfMixed = some resMixed
  ∧ resMixed.cleaned.columns = dfMixed.columns
  ∧ (resMixed.cleaned.columns = dfMixed.columns
      ∧ resMixed.cleaned.rows
        = (dfMixed.rows.filter (rowParses dfMixed)).map (transformRow (popIdx dfMixed))
      ∧ (∀ r : List Cell, ∀ j : Nat, j ≠ popIdx dfMixed →
          cellAt j (transformRow (popIdx dfMixed) r) = cellAt j r)
      ∧ (∀ r : List Cell, ∀ q : Rat, cleanCell (cellAt (popIdx dfMixed) r) = some q →
          cellAt (popIdx dfMixed) (transformRow (popIdx dfMixed) r) = Cell.num q)) :=
  ⟨by with_unfolding_all rfl, by decide,
   c9_in_place_mutation dfMixed resMixed (by with_unfolding_all rfl)⟩

/-!
Claims about the scraper and the chart renderer.
-/

/-- Whether a parsed table has a "Population" column after stripping. -/
def hasPopulation (t : DataFrame) : Prop :=
  "Population" ∈ (stripColumns t).columns

instance (t : DataFrame) : Decidable (hasPopulation t) :=
  inferInstanceAs (Decidable ("Population" ∈ (stripColumns t).columns))

/-- C8: no pipeline stage propagates a failure to its caller as anything
but a value: the scraper maps any fetch or parse error to an empty frame,
and the cleaner returns no result whenever the "Population" column is
absent from the input frame. -/
theorem c8_errors_not_fatal :
    (∀ e : String, scrape_wiki_tables (Except.error e) = DataFrame.empty)
  ∧ (∀ df : DataFrame, "Population" ∉ df.columns →
      clean_and_analyze_population_data df = none) := by
  constructor
  · intro e
    rfl
  · intro df hmem
    unfold clean_and_analyze_population_data
    rw [if_neg hmem]

/-- Witness for C8: a failed fetch yields the empty frame and a frame
without a Population column yields no clean result. -/
theorem c8_errors_not_fatal_witness :
    scrape_wiki_tables (Except.error "connection timed out") = DataFrame.empty
  ∧ clean_and_analyze_population_data ⟨["Country"], [[Cell.str "A"]]⟩ = none :=
  ⟨c8_errors_not_fatal.1 "connection timed out",
   c8_errors_not_fatal.2 ⟨["Country"], [[Cell.str "A"]]⟩ (by decide)⟩

theorem findPopulationTable_first :
    ∀ (tables : List DataFrame) (i : Nat) (hi : i < tables.length),
      hasPopulation (tables.get ⟨i, hi⟩) →
      (∀ j (hj : j < i), ¬ hasPopulation (tables.get ⟨j, Nat.lt_trans hj hi⟩)) →
      findPopulationTable tables = stripColumns (tables.get ⟨i, hi⟩) := by
  intro tables
  induction tables with
  | nil => intro i hi; simp at hi
  | cons t ts ih =>
    intro i hi hp hfirst
    cases i with
    | zero =>
      have hp2 : "Population" ∈ (stripColumns t).columns := hp
      show (if "Population" ∈ (stripColumns t).columns then stripColumns t
        else findPopulationTable ts) = stripColumns t
      rw [if_pos hp2]
    | succ n =>
      have hnot : ¬ hasPopulation t := hfirst 0 (Nat.succ_pos n)
      have hnot2 : ¬ "Population" ∈ (stripColumns t).columns := hnot
      show (if "Population" ∈ (stripColumns t).columns then stripColumns t
        else findPopulationTable ts) = _
      rw [if_neg hnot2]
      exact ih n (Nat.lt_of_succ_lt_succ hi) hp
        (fun j hj => hfirst (j + 1) (Nat.succ_lt_succ hj))

theorem findPopulationTable_none :
    ∀ (tables : List DataFrame), (∀ t ∈ tables, ¬ hasPopulation t) →
      findPopulationTable tables = DataFrame.empty := by
  intro tables
  induction tables with
  | nil => intro _; rfl
  | cons t ts ih =>
    intro h
    have hnot2 : ¬ "Population" ∈ (stripColumns t).columns := h t (by simp)
    show (if "Population" ∈ (stripColumns t).columns then stripColumns t
      else findPopulationTable ts) = DataFrame.empty
    rw [if_neg hnot2]
    exact ih (fun x hx => h x (by simp [hx]))

/-- C4: on successfully parsed tables, the scraper returns the first table
in page order whose stripped column names contain exactly "Population"
(with its columns stripped), regardless of other tables; when no table
qualifies it returns the empty frame. -/
theorem c4_first_population_table (tables : List DataFrame) :
    (∀ i (hi : i < tables.length),
      hasPopulation (tables.get ⟨i, hi⟩) →
      (∀ j (hj : j < i), ¬ hasPopulation (tables.get ⟨j, Nat.lt_trans hj hi⟩)) →
      scrape_wiki_tables (Except.ok tables) = stripColumns (tables.get ⟨i, hi⟩))
  ∧ ((∀ t ∈ tables, ¬ hasPopulation t) →
      scrape_wiki_tables (Except.ok tables) = DataFrame.empty) := by
  constructor
  · intro i hi hp hfirst
    exact findPopulationTable_first tables i hi hp hfirst
  · intro h
    exact findPopulationTable_none tables h

/-- A list of parsed tables in which only the second has a Population
column (after stripping the column names). -/
def tablesW : List DataFrame :=
  [⟨["City", "Area"], [[Cell.str "X", Cell.str "1"]]⟩,
   ⟨["Country", " Population "], [[Cell.str "A", Cell.str "5"]]⟩,
   ⟨["Population"], [[Cell.str "9"]]⟩]

/-- Witness for C4: among three tables where the second is the first with
a Population column, that second table is returned with stripped columns. -/
theorem c4_first_population_table_witness :
    scrape_wiki_tables (Except.ok tablesW)
      = stripColumns (tablesW.get ⟨1, by decide⟩)
  ∧ scrape_wiki_tables (Except.ok tablesW)
      = ⟨["Country", "Population"], [[Cell.str "A", Cell.str "5"]]⟩ :=
  ⟨(c4_first_population_table tablesW).1 1 (by decide) (by decide)
     (fun j hj => by
        have hj0 : j = 0 := Nat.lt_one_iff.mp hj
        subst hj0
        show ¬ hasPopulation (tablesW.get ⟨0, by decide⟩)
        decide),
   by decide⟩

theorem find?_eq_some_of_first {α : Type} {p : α → Bool} :
    ∀ (l : List α) (i : Nat) (hi : i < l.length),
      p (l.get ⟨i, hi⟩) = true →
      (∀ j (hj : j < i), ¬ p (l.get ⟨j, Nat.lt_trans hj hi⟩) = true) →
      l.find? p = some (l.get ⟨i, hi⟩) := by
  intro l
  induction l with
  | nil => intro i hi; simp at hi
  | cons a t ih =>
    intro i hi hp hfirst
    cases i with
    | zero => exact List.find?_cons_of_pos t hp
    | succ n =>
      have h0 : ¬ p a = true := hfirst 0 (Nat.succ_pos n)
      rw [List.find?_cons_of_neg t h0]
      exact ih n (Nat.lt_of_succ_lt_succ hi) hp
        (fun j hj => hfirst (j + 1) (Nat.succ_lt_succ hj))

theorem create_chart_nonempty {df : DataFrame} (hr : df.rows ≠ [])
    (hc : df.columns ≠ []) :
    create_population_chart (some df)
      = (match selectLabelColumn df with
         | some c => ChartOutcome.rendered c
         | none => ChartOutcome.noLabelColumn) := by
  have h1 : df.rows.isEmpty = false := by
    cases hrw : df.rows with
    | nil => exact absurd hrw hr
    | cons a t => rfl
  have h2 : df.columns.isEmpty = false := by
    cases hcl : df.columns with
    | nil => exact absurd hcl hc
    | cons a t => rfl
  unfold create_population_chart
  simp [h1, h2]

/-- C5: for a non-empty ranked frame the chart renderer selects the label
column by ordered predicates: the first column whose name contains
"Country" or "Dependency"; otherwise the first text-typed column whose
name contains none of "Population", "Region", "Date"; otherwise it aborts
with a no-suitable-label-column outcome. -/
theorem c5_label_column_selection (df : DataFrame) (hr : df.rows ≠ [])
    (hc : df.columns ≠ []) :
    (∀ i (hi : i < df.columns.length),
      labelPred1 (df.columns.get ⟨i, hi⟩) = true →
      (∀ j (hj : j < i), ¬ labelPred1 (df.columns.get ⟨j, Nat.lt_trans hj hi⟩) = true) →
      create_population_chart (some df)
        = ChartOutcome.rendered (df.columns.get ⟨i, hi⟩))
  ∧ ((∀ c ∈ df.columns, ¬ labelPred1 c = true) →
      ∀ i (hi : i < df.columns.length),
      labelPred2 df i (df.columns.get ⟨i, hi⟩) = true →
      (∀ j (hj : j < i), ¬ labelPred2 df j (df.columns.get ⟨j, Nat.lt_trans hj hi⟩) = true) →
      create_population_chart (some df)
        = ChartOutcome.rendered (df.columns.get ⟨i, hi⟩))
  ∧ ((∀ c ∈ df.columns, ¬ labelPred1 c = true) →
      (∀ i (hi : i < df.columns.length),
        ¬ labelPred2 df i (df.columns.get ⟨i, hi⟩) = true) →
      create_population_chart (some df) = ChartOutcome.noLabelColumn) := by
  refine ⟨?_, ?_, ?_⟩
  · intro i hi hp hfirst
    have hfind : df.columns.find? labelPred1 = some (df.columns.get ⟨i, hi⟩) :=
      find?_eq_some_of_first df.columns i hi hp hfirst
    rw [create_chart_nonempty hr hc]
    unfold selectLabelColumn
    rw [hfind]
  · intro hno1 i hi hp hfirst
    have hfind1 : df.columns.find? labelPred1 = none := List.find?_eq_none.mpr hno1
    have hi2 : i < df.columns.enum.length := by
      rw [List.enum_length]
      exact hi
    have hget : df.columns.enum.get ⟨i, hi2⟩ = (i, df.columns.get ⟨i, hi⟩) := by
      simp [List.get_eq_getElem, List.getElem_enum]
    have hfind2 : df.columns.enum.find? (fun p => labelPred2 df p.1 p.2)
        = some (i, df.columns.get ⟨i, hi⟩) := by
      rw [← hget]
      apply find?_eq_some_of_first df.columns.enum i hi2
      · rw [hget]
        exact hp
      · intro j hj
        have hj2 : j < df.columns.length := Nat.lt_trans hj hi
        have hgj : df.columns.enum.get ⟨j, Nat.lt_trans hj hi2⟩
            = (j, df.columns.get ⟨j, hj2⟩) := by
          simp [List.get_eq_getElem, List.getElem_enum]
        rw [hgj]
        exact hfirst j hj
    rw [create_chart_nonempty hr hc]
    unfold selectLabelColumn
    rw [hfind1, hfind2]
    rfl
  · intro hno1 hno2
    have hfind1 : df.columns.find? labelPred1 = none := List.find?_eq_none.mpr hno1
    have hfind2 : df.columns.enum.find? (fun p => labelPred2 df p.1 p.2) = none := by
      rw [List.find?_eq_none]
      intro x hx
      obtain ⟨hb, hv⟩ := List.getElem?_eq_some_iff.mp (List.mem_enum_iff_getElem?.mp hx)
      have hx2 : x = (x.1, df.columns.get ⟨x.1, hb⟩) := by
        rw [List.get_eq_getElem, hv]
      rw [hx2]
      exact hno2 x.1 hb
    rw [create_chart_nonempty hr hc]
    unfold selectLabelColumn
    rw [hfind1, hfind2]
    rfl

/-- A ranked frame with columns Country/Dependency, Population, Region. -/
def dfChart : DataFrame :=
  ⟨["Country/Dependency", "Population", "Region"],
   [[Cell.str "India", Cell.num 1404910000, Cell.str "Asia"]]⟩

/-- Witness for C5: with columns Country/Dependency, Population, Region
the selected label column is "Country/Dependency". -/
theorem c5_label_column_selection_witness :
    create_population_chart (some dfChart) = ChartOutcome.rendered "Country/Dependency"
  ∧ create_population_chart (some dfChart)
      = ChartOutcome.rendered (dfChart.columns.get ⟨0, by decide⟩) :=
  ⟨by decide,
   (c5_label_column_selection dfChart (by decide) (by decide)).1 0 (by decide) (by decide)
     (fun j hj => absurd hj (Nat.not_lt_zero j))⟩

/-!
Claims about the section analyzer.
-/

/-- A headline span named History. -/
def spanHistory : Html :=
  Html.elem "span" [("class", "mw-headline")] (HtmlList.ofList [Html.text "History"])

/-- A headline span named Orphan. -/
def spanOrphan : Html :=
  Html.elem "span" [("class", "mw-headline")] (HtmlList.ofList [Html.text "Orphan"])

/-- The heading element enclosing the History span. -/
def h2History : Html :=
  Html.elem "h2" [] (HtmlList.ofList [spanHistory])

/-- The heading element enclosing the Orphan span; nothing follows it. -/
def h2Orphan : Html :=
  Html.elem "h2" [] (HtmlList.ofList [spanOrphan])

/-- The content block following the History heading: one paragraph with
one link and three words. -/
def divHistory : Html :=
  Html.elem "div" [] (HtmlList.ofList
    [Html.elem "p" [] (HtmlList.ofList
      [Html.text "hello world ",
       Html.elem "a" [("href", "x")] (HtmlList.ofList [Html.text "link"])])])

/-- A page with two sections: History has a following div, Orphan has no
following sibling at all. -/
def docTwoSections : Html :=
  Html.elem "html" [] (HtmlList.ofList
    [Html.elem "body" [] (HtmlList.ofList [h2History, divHistory, h2Orphan])])

/-- The main content container of `docMain`: one paragraph, two words. -/
def divMain : Html :=
  Html.elem "div" [("id", "mw-content-text")] (HtmlList.ofList
    [Html.elem "p" [] (HtmlList.ofList [Html.text "alpha beta"])])

/-- A page with no headline spans but with a main content container. -/
def docMain : Html :=
  Html.elem "html" [] (HtmlList.ofList
    [Html.elem "body" [] (HtmlList.ofList [divMain])])

/-- A page with no headline spans and no mw-content-text container. -/
def docNoContainer : Html :=
  Html.elem "html" [] (HtmlList.ofList
    [Html.elem "p" [] (HtmlList.ofList [Html.text "stray text"])])

/-- Counterexample to C6 as stated: this page has zero section-heading
markers, yet the analyzer reports zero sections, not exactly one, because
the page has no mw-content-text container. -/
theorem c6_counterexample :
    (collectHeadlines docNoContainer []).length = 0
  ∧ findDivById "mw-content-text" docNoContainer = none
  ∧ ¬ (analyze_page_content docNoContainer).length = 1 := by
  refine ⟨rfl, rfl, ?_⟩
  intro h
  rw [show analyze_page_content docNoContainer = [] from rfl] at h
  exact absurd h (by decide)

/-- C6 (amended): for every fetched page with zero section-heading markers
whose document contains a main content container (a div with id
mw-content-text), the analyzer reports exactly one section, named
"Main Content", with counts computed over that container. -/
theorem c6_main_content (doc body : Html)
    (h1 : collectHeadlines doc [] = [])
    (h2 : findDivById "mw-content-text" doc = some body) :
    analyze_page_content doc
      = [("Main Content", some (count_attributes_in_section body))] := by
  simp [analyze_page_content, h1, h2]

/-- Witness for the amended C6 on a page whose container has one
paragraph of two words. -/
theorem c6_main_content_witness :
    analyze_page_content docMain
      = [("Main Content", some (count_attributes_in_section divMain))]
  ∧ analyze_page_content docMain = [("Main Content", some ⟨1, 0, 0, 2⟩)] :=
  ⟨c6_main_content docMain divMain rfl rfl, by decide⟩

/-- C7: when a page has headline spans, every span yields exactly one
report: a span whose enclosing element has no following div sibling is
reported with no content, and every span with such a sibling is reported
with that block's counts, so one contentless section never prevents the
analysis of the others. -/
theorem c7_section_without_content (doc : Html)
    (hne : collectHeadlines doc [] ≠ []) :
    (analyze_page_content doc).length = (collectHeadlines doc []).length
  ∧ (∀ pr ∈ collectHeadlines doc [], pr.2.find? (isTag "div") = none →
      (getText pr.1, (none : Option SectionCounts)) ∈ analyze_page_content doc)
  ∧ (∀ pr ∈ collectHeadlines doc [], ∀ d, pr.2.find? (isTag "div") = some d →
      (getText pr.1, some (count_attributes_in_section d)) ∈ analyze_page_content doc) := by
  have hie : (collectHeadlines doc []).isEmpty = false := by
    cases hcl : collectHeadlines doc [] with
    | nil => exact absurd hcl hne
    | cons a t => rfl
  have ha : analyze_page_content doc
      = (collectHeadlines doc []).map (fun pr =>
          (getText pr.1, (pr.2.find? (isTag "div")).map count_attributes_in_section)) := by
    simp [analyze_page_content, hie]
  refine ⟨by rw [ha, List.length_map], ?_, ?_⟩
  · intro pr hpr hnone
    rw [ha]
    have hm := List.mem_map_of_mem (fun pr =>
      (getText pr.1, (pr.2.find? (isTag "div")).map count_attributes_in_section)) hpr
    simpa [hnone] using hm
  · intro pr hpr d hsome
    rw [ha]
    have hm := List.mem_map_of_mem (fun pr =>
      (getText pr.1, (pr.2.find? (isTag "div")).map count_attributes_in_section)) hpr
    simpa [hsome] using hm

/-- Witness for C7 on a page where Orphan has no following content block
and History has one: Orphan is reported without content and History's
counts still come out. -/
theorem c7_section_without_content_witness :
    (analyze_page_content docTwoSections).length
      = (collectHeadlines docTwoSections []).length
  ∧ (getText spanOrphan, (none : Option SectionCounts)) ∈ analyze_page_content docTwoSections
  ∧ (getText spanHistory, some (count_attributes_in_section divHistory))
      ∈ analyze_page_content docTwoSections
  ∧ analyze_page_content docTwoSections
      = [("History", some ⟨1, 1, 0, 3⟩), ("Orphan", none)] := by
  have hcoll : collectHeadlines docTwoSections []
      = [(spanHistory, [divHistory, h2Orphan]), (spanOrphan, [])] := rfl
  have hne : collectHeadlines docTwoSections [] ≠ [] := by
    rw [hcoll]
    exact List.cons_ne_nil _ _
  obtain ⟨a, b, c⟩ := c7_section_without_content docTwoSections hne
  refine ⟨a, ?_, ?_, by decide⟩
  · refine b (spanOrphan, []) ?_ rfl
    rw [hcoll]
    simp
  · refine c (spanHistory, [divHistory, h2Orphan]) ?_ divHistory rfl
    rw [hcoll]
    simp

/-!
Tie-breaking of the top-10 selection (C10): the stable descending sort of
`nlargest` with the keep-first policy equals, row for row, the sort of the
position-decorated rows by population descending and original position
ascending.
-/

/-- Ranking order on position-decorated rows: strictly larger population
first, and among equal populations the smaller original position first. -/
def rankLex (i : Nat) (a b : Nat × List Cell) : Prop :=
  rowPop i b.2 < rowPop i a.2 ∨ (rowPop i a.2 = rowPop i b.2 ∧ a.1 ≤ b.1)

instance (i : Nat) : DecidableRel (rankLex i) :=
  fun a b => inferInstanceAs (Decidable
    (rowPop i b.2 < rowPop i a.2 ∨ (rowPop i a.2 = rowPop i b.2 ∧ a.1 ≤ b.1)))

instance (i : Nat) : IsTotal (Nat × List Cell) (rankLex i) := by
  constructor
  intro a b
  rcases lt_trichotomy (rowPop i a.2) (rowPop i b.2) with h | h | h
  · exact Or.inr (Or.inl h)
  · rcases Nat.le_total a.1 b.1 with hle | hle
    · exact Or.inl (Or.inr ⟨h, hle⟩)
    · exact Or.inr (Or.inr ⟨h.symm, hle⟩)
  · exact Or.inl (Or.inl h)

instance (i : Nat) : IsTrans (Nat × List Cell) (rankLex i) := by
  constructor
  intro a b c hab hbc
  rcases hab with hab | ⟨hab, hab2⟩
  · rcases hbc with hbc | ⟨hbc, -⟩
    · exact Or.inl (lt_trans hbc hab)
    · exact Or.inl (hbc ▸ hab)
  · rcases hbc with hbc | ⟨hbc, hbc2⟩
    · exact Or.inl (hab ▸ hbc)
    · exact Or.inr ⟨hab.trans hbc, Nat.le_trans hab2 hbc2⟩

theorem le_fst_of_mem_enumFrom {α : Type} :
    ∀ (l : List α) (n : Nat) (p : Nat × α), p ∈ List.enumFrom n l → n ≤ p.1 := by
  intro l
  induction l with
  | nil => intro n p hp; simp [List.enumFrom] at hp
  | cons a t ih =>
    intro n p hp
    rw [show List.enumFrom n (a :: t) = (n, a) :: List.enumFrom (n + 1) t from rfl] at hp
    rcases List.mem_cons.mp hp with rfl | hp2
    · exact Nat.le_refl n
    · exact Nat.le_of_succ_le (ih (n + 1) p hp2)

theorem orderedInsert_rankLex_map (i : Nat) :
    ∀ (l : List (Nat × List Cell)) (n : Nat) (a : List Cell),
      (∀ p ∈ l, n < p.1) →
      (List.orderedInsert (rankLex i) (n, a) l).map Prod.snd
        = List.orderedInsert (popGE i) a (l.map Prod.snd) := by
  intro l
  induction l with
  | nil => intro n a _; rfl
  | cons mb t ih =>
    intro n a h
    obtain ⟨m, b⟩ := mb
    have hnm : n < m := h (m, b) (by simp)
    have hiff : rankLex i (n, a) (m, b) ↔ popGE i a b := by
      unfold rankLex popGE
      constructor
      · rintro (hlt | ⟨heq, -⟩)
        · exact le_of_lt hlt
        · exact le_of_eq heq.symm
      · intro hle
        rcases lt_or_eq_of_le hle with hlt | heq
        · exact Or.inl hlt
        · exact Or.inr ⟨heq.symm, Nat.le_of_lt hnm⟩
    simp only [List.orderedInsert, List.map_cons]
    by_cases hc : popGE i a b
    · rw [if_pos (hiff.mpr hc), if_pos hc]
      simp
    · rw [if_neg (fun hh => hc (hiff.mp hh)), if_neg hc]
      simp only [List.map_cons]
      rw [ih n a (fun p hp => h p (by simp [hp]))]

theorem insertionSort_enumFrom_snd (i : Nat) :
    ∀ (rows : List (List Cell)) (n : Nat),
      ((List.enumFrom n rows).insertionSort (rankLex i)).map Prod.snd
        = rows.insertionSort (popGE i) := by
  intro rows
  induction rows with
  | nil => intro n; rfl
  | cons r t ih =>
    intro n
    rw [show List.enumFrom n (r :: t) = (n, r) :: List.enumFrom (n + 1) t from rfl]
    simp only [List.insertionSort]
    rw [orderedInsert_rankLex_map i _ n r ?hbound, ih (n + 1)]
    case hbound =>
      intro p hp
      have hp2 : p ∈ List.enumFrom (n + 1) t :=
        (List.mem_insertionSort (rankLex i)).mp hp
      exact Nat.lt_of_succ_le (le_fst_of_mem_enumFrom t (n + 1) p hp2)

/-- C10: the ranked subset is the first 10 rows of the sort of the cleaned
rows decorated with their positions, ordered by population descending and,
among equal populations, by original position ascending — so boundary ties
keep the earlier rows, deterministically. -/
theorem c10_tie_break (df : DataFrame) (res : CleanResult)
    (h : clean_and_analyze_population_data df = some res) :
    res.top10.rows
      = (((res.cleaned.rows.enum).insertionSort (rankLex (popIdx df))).map Prod.snd).take 10
  ∧ List.Sorted (rankLex (popIdx df))
      ((res.cleaned.rows.enum).insertionSort (rankLex (popIdx df))) := by
  obtain ⟨-, htop, -, hcl⟩ := clean_some_inv h
  constructor
  · rw [htop, hcl]
    show nlargestRows 10 (popIdx df) (cleanedRows df)
      = (((cleanedRows df).enum.insertionSort (rankLex (popIdx df))).map Prod.snd).take 10
    unfold nlargestRows
    rw [show (cleanedRows df).enum = List.enumFrom 0 (cleanedRows df) from rfl,
      insertionSort_enumFrom_snd (popIdx df) (cleanedRows df) 0]
  · rw [hcl]
    exact List.sorted_insertionSort (rankLex (popIdx df)) _

/-- A frame with two rows tied at population 7. -/
def dfTies : DataFrame :=
  ⟨["Country", "Population"],
   [[Cell.str "A", Cell.str "7"], [Cell.str "B", Cell.str "7"],
    [Cell.str "C", Cell.str "5"]]⟩

/-- Result of cleaning `dfTies`: the tied rows keep their original order. -/
def resTies : CleanResult :=
  ⟨⟨["Country", "Population"],
    [[Cell.str "A", Cell.num 7], [Cell.str "B", Cell.num 7],
     [Cell.str "C", Cell.num 5]]⟩,
   (19 : Rat) / 3,
   ⟨["Country", "Population"],
    [[Cell.str "A", Cell.num 7], [Cell.str "B", Cell.num 7],
     [Cell.str "C", Cell.num 5]]⟩⟩

/-- Eleven cleaned rows where the first and the last are tied at 11, the
tie falling exactly on the top-10 boundary. -/
def rowsTie : List (List Cell) :=
  [[Cell.str "R0", Cell.num 11], [Cell.str "R1", Cell.num 20],
   [Cell.str "R2", Cell.num 19], [Cell.str "R3", Cell.num 18],
   [Cell.str "R4", Cell.num 17], [Cell.str "R5", Cell.num 16],
   [Cell.str "R6", Cell.num 15], [Cell.str "R7", Cell.num 14],
   [Cell.str "R8", Cell.num 13], [Cell.str "R9", Cell.num 12],
   [Cell.str "R10", Cell.num 11]]

/-- Witness for C10: on `dfTies` the decorated-sort description holds, and
at a boundary tie (rows R0 and R10 both at 11) the earlier row R0 is kept
and the later R10 dropped. -/
theorem c10_tie_break_witness :
    clean_and_analyze_population_data dfTies = some resTies
  ∧ nlargestRows 10 1 rowsTie
      = [[Cell.str "R1", Cell.num 20], [Cell.str "R2", Cell.num 19],
         [Cell.str "R3", Cell.num 18], [Cell.str "R4", Cell.num 17],
         [Cell.str "R5", Cell.num 16], [Cell.str "R6", Cell.num 15],
         [Cell.str "R7", Cell.num 14], [Cell.str "R8", Cell.num 13],
         [Cell.str "R9", Cell.num 12], [Cell.str "R0", Cell.num 11]]
  ∧ (resTies.top10.rows
      = (((resTies.cleaned.rows.enum).insertionSort (rankLex (popIdx dfTies))).map Prod.snd).take 10
    ∧ List.Sorted (rankLex (popIdx dfTies))
        ((resTies.cleaned.rows.enum).insertionSort (rankLex (popIdx dfTies)))) :=
  ⟨by with_unfolding_all rfl, by decide,
   c10_tie_break dfTies resTies (by with_unfolding_all rfl)⟩
